import Mathlib

/-
Verification of the receipt ingestion pipeline of the construction-receipt-api
repository, as a shallow embedding in Lean 4.

Conventions of the embedding:
* JavaScript strings are `List Char`; template literals become list append.
* Machine/JS numbers that only ever hold exact monetary or pixel values are
  `Rat` respectively `Nat`; all arithmetic performed by the code on them is
  exact, so no rounding model is needed for the verified properties.
* `async` functions that can reject are `Except ErrMsg _`; the outcomes of
  external calls (S3, the sharp image library) are passed in explicitly as
  environment values, since the embedded code only branches on those
  outcomes, never on the bytes themselves.
* `try { e } catch ...` becomes a `match` on the `Except` value of `e`.
-/

/-- An S3 object key (an opaque path-like string). -/
abbrev Key := List Char

/-- An error message carried by a thrown `Error`. -/
abbrev ErrMsg := List Char

/-- A byte buffer. -/
abbrev Buffer := List Nat

/-- `S3_KEY_PREFIX.RECEIPTS` from `src/config/s3.config.ts`. -/
def RECEIPTS : Key := "receipts".toList

/-- `S3_KEY_PREFIX.THUMBNAILS` from `src/config/s3.config.ts`. -/
def THUMBNAILS : Key := "thumbnails".toList

/-- Does `pat` occur at the start of the string? (JS substring search step.) -/
def startsWith : List Char → List Char → Bool
  | [], _ => true
  | _ :: _, [] => false
  | p :: ps, c :: cs => p == c && startsWith ps cs

/-- JavaScript `String.prototype.replace` with a plain-string pattern:
it replaces only the FIRST occurrence of `pat` (scanning left to right) by
`rep`, and returns the input unchanged when `pat` does not occur. -/
def replaceFirst (pat rep : List Char) : List Char → List Char
  | [] => []
  | c :: cs =>
    if startsWith pat (c :: cs) then rep ++ (c :: cs).drop pat.length
    else c :: replaceFirst pat rep cs

/-- Does `pat` occur anywhere in the string (JS `String.prototype.includes`)? -/
def hasSubstr (pat : List Char) : List Char → Bool
  | [] => pat.isEmpty
  | c :: cs => startsWith pat (c :: cs) || hasSubstr pat cs

/-- Embeds `generateThumbnailKey` (`src/config/s3.config.ts` lines 55-57):
`receiptKey.replace(S3_KEY_PREFIX.RECEIPTS, S3_KEY_PREFIX.THUMBNAILS)`. -/
def generateThumbnailKey (receiptKey : Key) : Key :=
  replaceFirst RECEIPTS THUMBNAILS receiptKey

/-- Embeds `generateReceiptKey` (`src/config/s3.config.ts` lines 44-52):
the template literal
`receipts/${companyId}/${year}/${month}/${userId}/${uniqueId}${ext}`.
The non-deterministic inputs of the original (`uuidv4()`, the current date,
and the lower-cased extension extracted from the filename) are passed in as
explicit arguments. -/
def generateReceiptKey (companyId userId ext uniqueId year month : Key) : Key :=
  RECEIPTS ++ ('/' :: companyId) ++ ('/' :: year) ++ ('/' :: month) ++
    ('/' :: userId) ++ ('/' :: uniqueId) ++ ext

theorem startsWith_self_append (p t : List Char) : startsWith p (p ++ t) = true := by
  induction p with
  | nil => rfl
  | cons c cs ih => simp [startsWith, ih]

theorem eq_append_drop_of_startsWith {p s : List Char} (h : startsWith p s = true) :
    s = p ++ s.drop p.length := by
  induction p generalizing s with
  | nil => simp
  | cons c cs ih =>
    cases s with
    | nil => simp [startsWith] at h
    | cons d ds =>
      simp only [startsWith, Bool.and_eq_true, beq_iff_eq] at h
      simpa [h.1] using ih h.2

theorem replaceFirst_append (pat rep t : List Char) (hne : pat ≠ []) :
    replaceFirst pat rep (pat ++ t) = rep ++ t := by
  cases pat with
  | nil => exact absurd rfl hne
  | cons p ps =>
    rw [List.cons_append, replaceFirst, if_pos]
    · rw [← List.cons_append, List.drop_left]
    · rw [← List.cons_append]
      exact startsWith_self_append _ _

theorem replaceFirst_of_not_hasSubstr {pat : List Char} (rep : List Char) {s : List Char}
    (h : hasSubstr pat s = false) : replaceFirst pat rep s = s := by
  induction s with
  | nil => rfl
  | cons c cs ih =>
    simp only [hasSubstr, Bool.or_eq_false_iff] at h
    rw [replaceFirst, if_neg, ih h.2]
    simp [h.1]

/-- On any key that starts with the `receipts` category, `generateThumbnailKey`
replaces exactly that leading occurrence and keeps the rest of the key. -/
theorem generateThumbnailKey_of_receipts {k : Key} (h : startsWith RECEIPTS k = true) :
    generateThumbnailKey k = THUMBNAILS ++ k.drop RECEIPTS.length := by
  show replaceFirst RECEIPTS THUMBNAILS k = _
  conv_lhs => rw [eq_append_drop_of_startsWith h]
  exact replaceFirst_append _ _ _ (by decide)

theorem receipts_key_ne_thumbnailKey {k f : Key} (hk : startsWith RECEIPTS k = true)
    (hf : startsWith RECEIPTS f = true) : k ≠ generateThumbnailKey f := by
  intro he
  have h1 : k = RECEIPTS ++ k.drop RECEIPTS.length := eq_append_drop_of_startsWith hk
  have h2 : generateThumbnailKey f = THUMBNAILS ++ f.drop RECEIPTS.length :=
    generateThumbnailKey_of_receipts hf
  rw [h1, h2] at he
  exact absurd (List.head_eq_of_cons_eq he) (by decide)

theorem generateThumbnailKey_injOn {k f : Key} (hk : startsWith RECEIPTS k = true)
    (hf : startsWith RECEIPTS f = true)
    (he : generateThumbnailKey k = generateThumbnailKey f) : k = f := by
  rw [generateThumbnailKey_of_receipts hk, generateThumbnailKey_of_receipts hf] at he
  have := List.append_cancel_left he
  rw [eq_append_drop_of_startsWith hk, eq_append_drop_of_startsWith hf, this]

/-- Right-nested rendering of the receipt-key template. -/
theorem generateReceiptKey_eq_append (companyId userId ext uniqueId year month : Key) :
    generateReceiptKey companyId userId ext uniqueId year month =
      RECEIPTS ++ ('/' :: (companyId ++ '/' :: (year ++ '/' :: (month ++
        '/' :: (userId ++ '/' :: (uniqueId ++ ext)))))) := by
  simp [generateReceiptKey, List.append_assoc]

theorem startsWith_generateReceiptKey (companyId userId ext uniqueId year month : Key) :
    startsWith RECEIPTS (generateReceiptKey companyId userId ext uniqueId year month) = true := by
  rw [generateReceiptKey_eq_append]
  exact startsWith_self_append _ _

/-- C3: a thumbnail key derived from a `generateReceiptKey`-produced key changes
only the category segment (`receipts` becomes `thumbnails`); every remaining
path segment is byte-identical, and the thumbnail key maps back to exactly one
original key (derivation is injective on receipt keys). -/
theorem generateThumbnailKey_generateReceiptKey
    (companyId userId ext uniqueId year month : Key) :
    generateThumbnailKey (generateReceiptKey companyId userId ext uniqueId year month) =
      THUMBNAILS ++ ('/' :: companyId) ++ ('/' :: year) ++ ('/' :: month) ++
        ('/' :: userId) ++ ('/' :: uniqueId) ++ ext
    ∧ ∀ c' u' e' i' y' m',
        generateThumbnailKey (generateReceiptKey c' u' e' i' y' m') =
          generateThumbnailKey (generateReceiptKey companyId userId ext uniqueId year month) →
        generateReceiptKey c' u' e' i' y' m' =
          generateReceiptKey companyId userId ext uniqueId year month := by
  constructor
  · show replaceFirst RECEIPTS THUMBNAILS _ = _
    rw [generateReceiptKey_eq_append, replaceFirst_append _ _ _ (by decide)]
    simp [List.append_assoc]
  · intro c' u' e' i' y' m' h
    exact generateThumbnailKey_injOn (startsWith_generateReceiptKey _ _ _ _ _ _)
      (startsWith_generateReceiptKey _ _ _ _ _ _) h

/-- Witness for C3 at concrete path segments. -/
theorem generateThumbnailKey_generateReceiptKey_witness :
    generateThumbnailKey
        (generateReceiptKey "acme".toList "u1".toList ".jpg".toList
          "id1".toList "2024".toList "07".toList) =
      "thumbnails/acme/2024/07/u1/id1.jpg".toList
    ∧ generateReceiptKey "acme".toList "u1".toList ".jpg".toList
        "id1".toList "2024".toList "07".toList =
      generateReceiptKey "acme".toList "u1".toList ".jpg".toList
        "id1".toList "2024".toList "07".toList := by
  have h := generateThumbnailKey_generateReceiptKey "acme".toList "u1".toList
    ".jpg".toList "id1".toList "2024".toList "07".toList
  exact ⟨by rw [h.1]; decide,
    h.2 "acme".toList "u1".toList ".jpg".toList "id1".toList "2024".toList "07".toList rfl⟩

/-- C4 counterexample: applying `generateThumbnailKey` twice to a receipt key
silently returns the thumbnail key unchanged; no error of any kind is raised
(the embedded function is total and error-free by construction). -/
theorem generateThumbnailKey_double_silent :
    generateThumbnailKey
        (generateThumbnailKey "receipts/acme/2024/07/u1/id1.jpg".toList) =
      generateThumbnailKey "receipts/acme/2024/07/u1/id1.jpg".toList := by
  decide

/-- C4 as amended: on any key in which the substring `receipts` does not occur
(in particular on the thumbnail key produced for any receipt key whose other
segments avoid that substring), `generateThumbnailKey` silently returns its
input unchanged instead of failing. -/
theorem generateThumbnailKey_no_receipts {k : Key}
    (h : hasSubstr RECEIPTS k = false) : generateThumbnailKey k = k :=
  replaceFirst_of_not_hasSubstr _ h

/-- Witness for the amended C4 at a concrete thumbnail key. -/
theorem generateThumbnailKey_no_receipts_witness :
    generateThumbnailKey "thumbnails/acme/2024/07/u1/id1.jpg".toList =
      "thumbnails/acme/2024/07/u1/id1.jpg".toList :=
  generateThumbnailKey_no_receipts (by decide)

/-- Metadata recorded about the original image (the `originalMetadata` field
of `ProcessedImage` in the upload service, lines 48-57). -/
structure OriginalMetadata where
  width : Option Nat
  height : Option Nat
  format : Option (List Char)
  size : Option Nat
deriving DecidableEq

/-- Result of successfully processing one uploaded file (the `ProcessedImage`
interface of the upload service, lines 48-57). -/
structure ProcessedImage where
  thumbnailKey : Key
  thumbnailUrl : Key
  originalMetadata : OriginalMetadata
deriving DecidableEq

/-- Embeds `cleanupUploadedFiles` (upload service lines 147-163): builds
`allKeys` as the original keys followed by their derived thumbnail keys and
issues one bulk `deleteFiles` call; the surrounding `try/catch` logs and
swallows any deletion error. Returns the keys submitted to the bulk delete
together with the function's outcome, which is `ok` whatever the outcome of
the delete call was. -/
def cleanupUploadedFiles (keys : List Key) (_deleteFilesOutcome : Except ErrMsg Unit) :
    List Key × Except ErrMsg Unit :=
  (keys ++ keys.map generateThumbnailKey, Except.ok ())

/-- Keys of the receipts whose processing settled rejected, in input order
(the `failed` array built by `batchProcessReceipts`). -/
def failedKeys (results : List (Key × Option ProcessedImage)) : List Key :=
  (results.filter (fun r => r.2.isNone)).map (fun r => r.1)

/-- Embeds `batchProcessReceipts` (upload service lines 218-243). Each input
pair is one receipt's key together with the settled outcome of its
`processReceiptImage` promise (`some` for fulfilled, `none` for rejected; the
per-file outcomes are decided by the environment, since `Promise.allSettled`
never short-circuits). Fulfilled values are pushed onto `processed` in order;
if any file failed, the failed keys are handed to `cleanupUploadedFiles`.
Returns the success list together with the keys submitted to cleanup. -/
def batchProcessReceipts (results : List (Key × Option ProcessedImage))
    (deleteFilesOutcome : Except ErrMsg Unit) : List ProcessedImage × List Key :=
  (results.filterMap (fun r => r.2),
   if 0 < (failedKeys results).length then
     (cleanupUploadedFiles (failedKeys results) deleteFilesOutcome).1
   else [])

theorem length_filterMap_add_failedKeys (results : List (Key × Option ProcessedImage)) :
    (results.filterMap (fun r => r.2)).length + (failedKeys results).length =
      results.length := by
  induction results with
  | nil => rfl
  | cons r rs ih =>
    rcases r with ⟨k, o⟩
    cases o with
    | none =>
      show (List.filterMap (fun r => r.2) rs).length + (k :: failedKeys rs).length =
        rs.length + 1
      rw [List.length_cons]
      omega
    | some p =>
      show (p :: List.filterMap (fun r => r.2) rs).length + (failedKeys rs).length =
        rs.length + 1
      rw [List.length_cons]
      omega

theorem mem_failedKeys {results : List (Key × Option ProcessedImage)} {k : Key} :
    k ∈ failedKeys results ↔ ∃ r, r ∈ results ∧ r.2 = none ∧ r.1 = k := by
  simp only [failedKeys, List.mem_map, List.mem_filter, Option.isNone_iff_eq_none]
  constructor
  · rintro ⟨r, ⟨hr, h2⟩, h1⟩
    exact ⟨r, hr, h2, h1⟩
  · rintro ⟨r, hr, h2, h1⟩
    exact ⟨r, ⟨hr, h2⟩, h1⟩

theorem mem_batch_cleanup {results : List (Key × Option ProcessedImage)}
    {del : Except ErrMsg Unit} {x : Key} (hx : x ∈ (batchProcessReceipts results del).2) :
    x ∈ failedKeys results ∨ ∃ f ∈ failedKeys results, x = generateThumbnailKey f := by
  by_cases hc : 0 < (failedKeys results).length
  · simp only [batchProcessReceipts, cleanupUploadedFiles, if_pos hc,
      List.mem_append, List.mem_map] at hx
    rcases hx with hx | ⟨f, hf, hfx⟩
    · exact Or.inl hx
    · exact Or.inr ⟨f, hf, hfx.symm⟩
  · simp [batchProcessReceipts, hc] at hx

/-- C1: in a batch of N files of which M fail, the success list has exactly
N − M entries; exactly the M failed original keys plus their derived
thumbnail keys are submitted to the bulk cleanup delete (and nothing when
M = 0); and every successfully processed file keeps its entry in the success
list while neither its key nor its derived thumbnail key is submitted for
deletion. Keys are assumed pairwise distinct and of the `receipts/...`
category, as `generateReceiptKey` produces them. -/
theorem batchProcessReceipts_partial_failure
    (results : List (Key × Option ProcessedImage)) (del : Except ErrMsg Unit)
    (hkeys : ∀ r ∈ results, startsWith RECEIPTS r.1 = true)
    (hnodup : (results.map (fun r => r.1)).Nodup) :
    (batchProcessReceipts results del).1.length
        = results.length - (failedKeys results).length
    ∧ (batchProcessReceipts results del).2
        = (if 0 < (failedKeys results).length then
            failedKeys results ++ (failedKeys results).map generateThumbnailKey
          else [])
    ∧ ∀ k p, (k, some p) ∈ results →
        p ∈ (batchProcessReceipts results del).1
        ∧ k ∉ (batchProcessReceipts results del).2
        ∧ generateThumbnailKey k ∉ (batchProcessReceipts results del).2 := by
  refine ⟨?_, rfl, ?_⟩
  · have := length_filterMap_add_failedKeys results
    show (results.filterMap (fun r => r.2)).length =
      results.length - (failedKeys results).length
    omega
  intro k p hmem
  have hkp : startsWith RECEIPTS k = true := hkeys (k, some p) hmem
  have hfailed : ∀ f, f ∈ failedKeys results → f ≠ k := by
    intro f hf hfk
    rcases mem_failedKeys.1 hf with ⟨r, hr, hr2, hr1⟩
    have := List.inj_on_of_nodup_map hnodup hmem hr (by rw [hr1, hfk])
    rw [← this] at hr2
    exact Option.noConfusion hr2
  refine ⟨List.mem_filterMap.2 ⟨(k, some p), hmem, rfl⟩, ?_, ?_⟩
  · intro hk
    rcases mem_batch_cleanup hk with hk | ⟨f, hf, hfx⟩
    · exact hfailed k hk rfl
    · rcases mem_failedKeys.1 hf with ⟨r, hr, _, hr1⟩
      have hswf : startsWith RECEIPTS f = true := by
        rw [← hr1]; exact hkeys r hr
      exact receipts_key_ne_thumbnailKey hkp hswf hfx
  · intro hk
    rcases mem_batch_cleanup hk with hk | ⟨f, hf, hfx⟩
    · rcases mem_failedKeys.1 hk with ⟨r, hr, _, hr1⟩
      have hswr : startsWith RECEIPTS r.1 = true := hkeys r hr
      exact receipts_key_ne_thumbnailKey hswr hkp hr1
    · rcases mem_failedKeys.1 hf with ⟨r, hr, _, hr1⟩
      have hswf : startsWith RECEIPTS f = true := by
        rw [← hr1]; exact hkeys r hr
      exact hfailed f hf (generateThumbnailKey_injOn hswf hkp hfx.symm)

/-- Concrete sample data: one successfully processed upload and one failed
upload, with receipt-category keys. -/
def keyA : Key := "receipts/acme/2024/07/u1/a.jpg".toList

def keyB : Key := "receipts/acme/2024/07/u1/b.jpg".toList

def pA : ProcessedImage :=
  { thumbnailKey := "thumbnails/acme/2024/07/u1/a.jpg".toList,
    thumbnailUrl := "https://example.test/a.jpg".toList,
    originalMetadata := ⟨some 800, some 600, some "jpeg".toList, some 2048⟩ }

def sampleBatch : List (Key × Option ProcessedImage) := [(keyA, some pA), (keyB, none)]

/-- Witness for C1 on a concrete two-file batch with one failure. -/
theorem batchProcessReceipts_partial_failure_witness :
    (batchProcessReceipts sampleBatch (Except.ok ())).1.length
        = sampleBatch.length - (failedKeys sampleBatch).length
    ∧ (batchProcessReceipts sampleBatch (Except.ok ())).2
        = (if 0 < (failedKeys sampleBatch).length then
            failedKeys sampleBatch ++ (failedKeys sampleBatch).map generateThumbnailKey
          else [])
    ∧ pA ∈ (batchProcessReceipts sampleBatch (Except.ok ())).1
    ∧ keyA ∉ (batchProcessReceipts sampleBatch (Except.ok ())).2
    ∧ generateThumbnailKey keyA ∉ (batchProcessReceipts sampleBatch (Except.ok ())).2 := by
  have h := batchProcessReceipts_partial_failure sampleBatch (Except.ok ())
    (by decide) (by decide)
  have h3 := h.2.2 keyA pA (by decide)
  exact ⟨h.1, h.2.1, h3.1, h3.2.1, h3.2.2⟩

/-- A multer-s3 uploaded file as the controllers see it (`MulterS3File` in
`src/controllers/receipts.controller.ts`): already streamed to storage under
`key` before the handler runs. -/
structure UploadedFile where
  key : Key
  contentType : Key
  originalname : Key
  size : Nat
deriving DecidableEq

/-- Data of the prisma `receipt.create` call inside `uploadMultipleReceipts`
(controller lines 243-259): the amount fields are the hardcoded zeros, the
`imageUrl` is the file's own key, while `thumbnailUrl` and `imageMetadata`
come from whatever `ProcessedImage` got paired with the file. -/
structure ReceiptRow where
  imageUrl : Key
  thumbnailUrl : Key
  amount : Rat
  totalAmount : Rat
  originalFilename : Key
  fileSize : Nat
  mimeType : Key
  imageMetadata : OriginalMetadata
deriving DecidableEq

def mkReceiptRow (file : UploadedFile) (processed : ProcessedImage) : ReceiptRow :=
  { imageUrl := file.key, thumbnailUrl := processed.thumbnailKey,
    amount := 0, totalAmount := 0,
    originalFilename := file.originalname, fileSize := file.size,
    mimeType := file.contentType, imageMetadata := processed.originalMetadata }

/-- Embeds the record-creation loop of `uploadMultipleReceipts` (controller
lines 236-261): `files.map((file, index) => ...)` pairs the file at `index`
with `processedImages[index]` — the COMPACTED success list returned by
`batchProcessReceipts` — and yields `null` when that slot is out of range. -/
def uploadMultiplePair (files : List UploadedFile)
    (processedImages : List ProcessedImage) : List (Option ReceiptRow) :=
  files.mapIdx (fun index file =>
    (processedImages[index]?).map (fun p => mkReceiptRow file p))

/-- The receipt rows (some created, some `null`) produced by
`uploadMultipleReceipts` for a batch whose per-file processing outcomes are
`outcomes` (aligned with `files`; the controller builds the batch input as
`files.map(file => ({ key: file.key, contentType: file.contentType }))`). -/
def uploadMultipleRows (files : List UploadedFile)
    (outcomes : List (Option ProcessedImage)) (del : Except ErrMsg Unit) :
    List (Option ReceiptRow) :=
  uploadMultiplePair files
    (batchProcessReceipts ((files.zip outcomes).map (fun fo => (fo.1.key, fo.2))) del).1

/-- Embeds `uploadMultipleReceipts` (controller lines 216-273) after the auth
and file-presence guards: the `successfulReceipts` response data (created
rows with the `null`s filtered out, returned verbatim in the JSON body) and
the keys the batch submitted to cleanup. -/
def uploadMultipleReceipts (files : List UploadedFile)
    (outcomes : List (Option ProcessedImage)) (del : Except ErrMsg Unit) :
    List ReceiptRow × List Key :=
  ((uploadMultipleRows files outcomes del).filterMap id,
   (batchProcessReceipts ((files.zip outcomes).map (fun fo => (fo.1.key, fo.2))) del).2)

theorem batch_fst_of_zip (files : List UploadedFile)
    (outcomes : List (Option ProcessedImage)) (del : Except ErrMsg Unit)
    (hlen : files.length = outcomes.length) :
    (batchProcessReceipts ((files.zip outcomes).map (fun fo => (fo.1.key, fo.2))) del).1 =
      outcomes.filterMap id := by
  show ((files.zip outcomes).map (fun fo => (fo.1.key, fo.2))).filterMap (fun r => r.2) =
    outcomes.filterMap id
  induction files generalizing outcomes with
  | nil =>
    cases outcomes with
    | nil => rfl
    | cons o os => simp at hlen
  | cons f fs ih =>
    cases outcomes with
    | nil => simp at hlen
    | cons o os =>
      have h := ih os (by simpa using hlen)
      cases o <;> simp [List.zip_cons_cons, h]

theorem filterMap_id_getElem?_src {α : Type} {l : List (Option α)} {j : Nat} {q : α}
    (h : (l.filterMap id)[j]? = some q) :
    ∃ k, l[k]? = some (some q) ∧ (l.take k).countP (fun o => o.isSome) = j := by
  induction l generalizing j with
  | nil => simp at h
  | cons o l ih =>
    cases o with
    | some a =>
      rw [show List.filterMap id (some a :: l) = a :: List.filterMap id l from rfl] at h
      cases j with
      | zero =>
        rw [List.getElem?_cons_zero] at h
        refine ⟨0, ?_, rfl⟩
        rw [List.getElem?_cons_zero, Option.some.injEq, Option.some.injEq]
        exact Option.some.inj h
      | succ j' =>
        rw [List.getElem?_cons_succ] at h
        rcases ih h with ⟨k, hk, hc⟩
        refine ⟨k + 1, by rw [List.getElem?_cons_succ]; exact hk, ?_⟩
        rw [List.take_succ_cons, List.countP_cons, hc]
        rfl
    | none =>
      rw [show List.filterMap id (none :: l) = List.filterMap id l from rfl] at h
      rcases ih h with ⟨k, hk, hc⟩
      refine ⟨k + 1, by rw [List.getElem?_cons_succ]; exact hk, ?_⟩
      rw [List.take_succ_cons, List.countP_cons, hc]
      rfl

theorem filterMap_id_getElem?_pos {α : Type} {l : List (Option α)} {j : Nat} {p : α}
    (h : l[j]? = some (some p)) :
    (l.filterMap id)[(l.take j).countP (fun o => o.isSome)]? = some p := by
  induction l generalizing j with
  | nil => simp at h
  | cons o l ih =>
    cases j with
    | zero =>
      rw [List.getElem?_cons_zero] at h
      rw [Option.some.inj h]
      simp
    | succ j' =>
      rw [List.getElem?_cons_succ] at h
      rw [List.take_succ_cons, List.countP_cons]
      cases o with
      | some a =>
        rw [show List.filterMap id (some a :: l) = a :: List.filterMap id l from rfl]
        rw [show ((List.countP (fun o => o.isSome) (l.take j')) +
          if (some a : Option α).isSome then 1 else 0) =
          (List.countP (fun o => o.isSome) (l.take j')) + 1 from rfl]
        rw [List.getElem?_cons_succ]
        exact ih h
      | none =>
        rw [show List.filterMap id (none :: l) = List.filterMap id l from rfl]
        rw [show ((List.countP (fun o => o.isSome) (l.take j')) +
          if (none : Option α).isSome then 1 else 0) =
          (List.countP (fun o => o.isSome) (l.take j')) + 0 from rfl]
        exact ih h

theorem countP_take_lt_of_none {α : Type} {l : List (Option α)} {i k : Nat} (hik : i < k)
    (hi : l[i]? = some none) : (l.take k).countP (fun o => o.isSome) < k := by
  have h1 : (l.take k).countP (fun o => o.isSome) ≤ (l.take k).length :=
    List.countP_le_length (fun (o : Option α) => o.isSome)
  have h2 : (l.take k).length ≤ k := by
    rw [List.length_take]
    exact min_le_left _ _
  have hmem : (none : Option α) ∈ l.take k := by
    refine List.getElem?_mem (n := i) ?_
    rw [List.getElem?_take_of_lt hik]
    exact hi
  rcases Nat.lt_or_ge ((l.take k).countP (fun o => o.isSome)) k with h | h
  · exact h
  · have hck : (l.take k).countP (fun o => o.isSome) = (l.take k).length := by omega
    have := List.countP_eq_length.1 hck none hmem
    simp at this

/-- C2: in `uploadMultipleReceipts`, when the file at position `i` fails
processing while a later file at position `j > i` succeeds with processed
image `p`, the row slot for file `j` never holds file `j`'s own processed
image: any record created for file `j` pairs it with the processed image of a
strictly later file (because the controller indexes into the compacted
success list), and if `j` is at or past the number of successes, file `j`
gets no receipt record at all (`null`). Thumbnail keys are assumed pairwise
distinct across the batch's successes. -/
theorem uploadMultipleReceipts_misalignment
    (files : List UploadedFile) (outcomes : List (Option ProcessedImage))
    (del : Except ErrMsg Unit)
    (hlen : files.length = outcomes.length)
    (hdist : ((outcomes.filterMap id).map (fun x => x.thumbnailKey)).Nodup)
    (i j : Nat) (f : UploadedFile) (p : ProcessedImage)
    (hij : i < j) (hi : outcomes[i]? = some none)
    (hj : outcomes[j]? = some (some p)) (hf : files[j]? = some f) :
    (uploadMultipleRows files outcomes del)[j]? ≠ some (some (mkReceiptRow f p))
    ∧ (∀ r, (uploadMultipleRows files outcomes del)[j]? = some (some r) →
        ∃ k q, j < k ∧ outcomes[k]? = some (some q) ∧ r = mkReceiptRow f q)
    ∧ ((outcomes.filterMap id).length ≤ j →
        (uploadMultipleRows files outcomes del)[j]? = some none) := by
  have hS := batch_fst_of_zip files outcomes del hlen
  have hrow : (uploadMultipleRows files outcomes del)[j]? =
      some (((outcomes.filterMap id)[j]?).map (fun q => mkReceiptRow f q)) := by
    simp only [uploadMultipleRows, uploadMultiplePair]
    rw [hS, List.getElem?_mapIdx, hf]
    rfl
  have hposS : (outcomes.filterMap id)[(outcomes.take j).countP (fun o => o.isSome)]? =
      some p := filterMap_id_getElem?_pos hj
  have hclt : (outcomes.take j).countP (fun o => o.isSome) < j :=
    countP_take_lt_of_none hij hi
  have hc2 : ∀ r, (uploadMultipleRows files outcomes del)[j]? = some (some r) →
      ∃ k q, j < k ∧ outcomes[k]? = some (some q) ∧ r = mkReceiptRow f q := by
    intro r hr
    rw [hrow] at hr
    rcases Option.map_eq_some'.1 (Option.some.inj hr) with ⟨q, hq, hqr⟩
    rcases filterMap_id_getElem?_src hq with ⟨k, hk, hck⟩
    have hkj : j < k := by
      by_contra hnk
      push_neg at hnk
      have h1 : (outcomes.take k).countP (fun o => o.isSome) ≤ (outcomes.take k).length :=
        List.countP_le_length (fun (o : Option ProcessedImage) => o.isSome)
      have h2 : (outcomes.take k).length ≤ k := by
        rw [List.length_take]
        exact min_le_left _ _
      have hkeq : k = j := by omega
      subst hkeq
      have hck' : (outcomes.take k).countP (fun o => o.isSome) =
          (outcomes.take k).length := by omega
      have hmem : (none : Option ProcessedImage) ∈ outcomes.take k := by
        refine List.getElem?_mem (n := i) ?_
        rw [List.getElem?_take_of_lt hij]
        exact hi
      have := List.countP_eq_length.1 hck' none hmem
      simp at this
    exact ⟨k, q, hkj, hk, hqr.symm⟩
  refine ⟨?_, hc2, ?_⟩
  · intro hcon
    rw [hrow] at hcon
    rcases Option.map_eq_some'.1 (Option.some.inj hcon) with ⟨q, hq, hqe⟩
    have htk : q.thumbnailKey = p.thumbnailKey := congrArg ReceiptRow.thumbnailUrl hqe
    have hm1 : (((outcomes.filterMap id).map
        (fun x => x.thumbnailKey))[(outcomes.take j).countP (fun o => o.isSome)]?) =
        some p.thumbnailKey := by
      rw [List.getElem?_map, hposS]
      rfl
    have hm2 : (((outcomes.filterMap id).map (fun x => x.thumbnailKey))[j]?) =
        some p.thumbnailKey := by
      rw [List.getElem?_map, hq]
      exact congrArg some htk
    have hb : (outcomes.take j).countP (fun o => o.isSome) <
        ((outcomes.filterMap id).map (fun x => x.thumbnailKey)).length := by
      rcases List.getElem?_eq_some_iff.1 hm1 with ⟨hlt2, _⟩
      exact hlt2
    have := List.getElem?_inj hb hdist (hm1.trans hm2.symm)
    omega
  · intro hle
    rw [hrow, List.getElem?_eq_none hle]
    rfl

/-- Concrete uploaded files matching `keyA` and `keyB`. -/
def fileA : UploadedFile :=
  { key := keyA, contentType := "image/jpeg".toList,
    originalname := "a.jpg".toList, size := 2048 }

def fileB : UploadedFile :=
  { key := keyB, contentType := "image/jpeg".toList,
    originalname := "b.jpg".toList, size := 4096 }

/-- Witness for C2: two files, the first fails, the second succeeds; the
successful second file gets no receipt record (its row is `null`), and in
particular not a record with its own processed image. -/
theorem uploadMultipleReceipts_misalignment_witness :
    (uploadMultipleRows [fileA, fileB] [none, some pA] (Except.ok ()))[1]? ≠
      some (some (mkReceiptRow fileB pA))
    ∧ (uploadMultipleRows [fileA, fileB] [none, some pA] (Except.ok ()))[1]? =
      some none := by
  have h := uploadMultipleReceipts_misalignment [fileA, fileB] [none, some pA]
    (Except.ok ()) rfl (by decide) 0 1 fileB pA (by decide) rfl rfl rfl
  exact ⟨h.1, h.2.2 (by decide)⟩

/-- Metadata reported by `sharp(imageBuffer).metadata()`: the fields the code
reads. Width and height are absent for undecodable input. -/
structure SharpMetadata where
  width : Option Nat
  height : Option Nat
  format : Option (List Char)
deriving DecidableEq

/-- Outcomes of the external calls made by one `processReceiptImage` run
(upload service lines 67-129), in call order: `s3.getObject` (which can
reject, or fulfil with a missing `Body`), the reported `ContentLength`,
`sharp().metadata()`, the `sharp().resize().jpeg().toBuffer()` chain, and
`s3.putObject`. The embedded code only branches on these outcomes. -/
structure ImageEnv where
  getObject : Except ErrMsg (Option Buffer)
  contentLength : Option Nat
  metadata : Except ErrMsg SharpMetadata
  thumbnailBuffer : Except ErrMsg Buffer
  putObject : Except ErrMsg Unit

/-- Message of the error thrown when the S3 response has no `Body`
(upload service line 79). -/
def failedRetrieveMsg : ErrMsg := "Failed to retrieve image from S3".toList

/-- Message of the single generic error rethrown by the `catch` of
`processReceiptImage` (upload service line 127). -/
def genericProcessMsg : ErrMsg := "Failed to process receipt image".toList

/-- Message of the error thrown by `convertPdfToImage`
(upload service line 63). -/
def pdfNotImplementedMsg : ErrMsg :=
  "PDF processing not yet implemented. Please upload image files.".toList

/-- Default `S3_BUCKET_NAME` (`src/config/s3.config.ts` line 21). -/
def S3_BUCKET_NAME : Key := "solyx-construction-receipts".toList

/-- Default AWS region (`src/config/s3.config.ts` line 22). -/
def AWS_REGION : Key := "us-east-1".toList

/-- The permanent public bucket URL built for the thumbnail
(upload service line 113). -/
def thumbnailPublicUrl (thumbnailKey : Key) : Key :=
  "https://".toList ++ S3_BUCKET_NAME ++ ".s3.".toList ++ AWS_REGION ++
    ".amazonaws.com/".toList ++ thumbnailKey

/-- Embeds `convertPdfToImage` (upload service lines 60-64): unconditionally
throws the not-implemented error. -/
def convertPdfToImage (_pdfBuffer : Buffer) : Except ErrMsg Buffer :=
  Except.error pdfNotImplementedMsg

/-- The body of the `try` block of `processReceiptImage` (upload service
lines 71-124): fetch the original, fail if the body is missing, read
metadata, build the thumbnail buffer, derive the thumbnail key, upload the
thumbnail, and return the processed-image record. -/
def processReceiptImageTry (env : ImageEnv) (key : Key) : Except ErrMsg ProcessedImage :=
  match env.getObject with
  | Except.error e => Except.error e
  | Except.ok none => Except.error failedRetrieveMsg
  | Except.ok (some _imageBuffer) =>
    match env.metadata with
    | Except.error e => Except.error e
    | Except.ok md =>
      match env.thumbnailBuffer with
      | Except.error e => Except.error e
      | Except.ok _thumbnailBuffer =>
        let thumbnailKey := generateThumbnailKey key
        match env.putObject with
        | Except.error e => Except.error e
        | Except.ok _ =>
          Except.ok
            { thumbnailKey := thumbnailKey,
              thumbnailUrl := thumbnailPublicUrl thumbnailKey,
              originalMetadata :=
                { width := md.width, height := md.height,
                  format := md.format, size := env.contentLength } }

/-- Embeds `processReceiptImage` (upload service lines 67-129): the `catch`
logs whatever went wrong and rethrows one generic error. -/
def processReceiptImage (env : ImageEnv) (key : Key) (_contentType : Key) :
    Except ErrMsg ProcessedImage :=
  match processReceiptImageTry env key with
  | Except.ok v => Except.ok v
  | Except.error _ => Except.error genericProcessMsg

/-- Output width of the thumbnail resize configured in `processReceiptImage`
(upload service lines 88-94): `sharp(buffer).resize(400, null, { fit:
'inside', withoutEnlargement: true })`. Per sharp's documented semantics,
`fit: 'inside'` with only a width given scales the image preserving aspect
ratio so the width is at most 400, and `withoutEnlargement: true` forbids
upscaling, so the output width is the minimum of the input width and 400.
The subsequent `.jpeg({ quality: 80 })` re-encode does not change pixel
dimensions. -/
def thumbnailOutputWidth (inputWidth : Nat) : Nat :=
  min inputWidth 400

/-- C6: the thumbnail is never wider than 400 pixels, and an input narrower
than 400 pixels is not upscaled: its thumbnail keeps the input width. -/
theorem thumbnailOutputWidth_bounded (inputWidth : Nat) :
    thumbnailOutputWidth inputWidth ≤ 400
    ∧ (inputWidth < 400 → thumbnailOutputWidth inputWidth = inputWidth) := by
  constructor
  · exact min_le_right _ _
  · intro h
    exact min_eq_left (Nat.le_of_lt h)

/-- Witness for C6 at a 250-pixel-wide input. -/
theorem thumbnailOutputWidth_bounded_witness :
    thumbnailOutputWidth 250 ≤ 400 ∧ thumbnailOutputWidth 250 = 250 :=
  ⟨(thumbnailOutputWidth_bounded 250).1, (thumbnailOutputWidth_bounded 250).2 (by decide)⟩

/-- Environment of a processing run over a PDF buffer: the object is fetched
fine, but sharp cannot decode a PDF, so the `metadata()` call rejects with
sharp's own distinct message. -/
def envPdf : ImageEnv :=
  { getObject := Except.ok (some [37, 80, 68, 70]),
    contentLength := some 4,
    metadata := Except.error "Input buffer contains unsupported image format".toList,
    thumbnailBuffer := Except.error "Input buffer contains unsupported image format".toList,
    putObject := Except.ok () }

/-- Environment of a processing run where the initial S3 read rejects for an
unrelated, transient reason. -/
def envNetFail : ImageEnv :=
  { getObject := Except.error "NetworkingError: socket hang up".toList,
    contentLength := none,
    metadata := Except.error "NetworkingError: socket hang up".toList,
    thumbnailBuffer := Except.error "NetworkingError: socket hang up".toList,
    putObject := Except.error "NetworkingError: socket hang up".toList }

/-- C8 counterexample: processing a PDF buffer surfaces exactly the same
generic `Failed to process receipt image` error as a completely unrelated
storage failure, so the caller cannot distinguish the PDF case; the distinct
not-implemented error of `convertPdfToImage` never reaches the caller (the
pipeline never calls that function). -/
theorem pdf_error_indistinguishable :
    processReceiptImage envPdf keyA "application/pdf".toList =
      Except.error genericProcessMsg
    ∧ processReceiptImage envNetFail keyA "image/jpeg".toList =
      Except.error genericProcessMsg := by
  constructor <;> rfl

/-- C8 as amended: `convertPdfToImage` itself always fails with the distinct
not-implemented message, but every failure of `processReceiptImage` —
whatever its cause — carries the one generic message, so the pipeline
collapses a PDF failure into the same error as any other failure. -/
theorem pdf_error_collapsed :
    (∀ b : Buffer, convertPdfToImage b = Except.error pdfNotImplementedMsg)
    ∧ (∀ (env : ImageEnv) (key contentType : Key),
        (processReceiptImage env key contentType).isOk = false →
        processReceiptImage env key contentType = Except.error genericProcessMsg) := by
  constructor
  · intro b
    rfl
  · intro env key contentType h
    unfold processReceiptImage at h ⊢
    cases hres : processReceiptImageTry env key with
    | ok v =>
      rw [hres] at h
      simp [Except.isOk, Except.toBool] at h
    | error e => rfl

/-- Witness for the amended C8 at the PDF environment. -/
theorem pdf_error_collapsed_witness :
    convertPdfToImage [37, 80, 68, 70] = Except.error pdfNotImplementedMsg
    ∧ processReceiptImage envPdf keyA "application/pdf".toList =
      Except.error genericProcessMsg :=
  ⟨pdf_error_collapsed.1 [37, 80, 68, 70],
   pdf_error_collapsed.2 envPdf keyA "application/pdf".toList (by decide)⟩

/-- Decimal rendering of a number interpolated into a template literal. -/
def natToChars (n : Nat) : List Char := (Nat.repr n).toList

/-- Message template of the size rejection (upload service line 178). -/
def sizeLimitMsg (maxSizeMB : Nat) : ErrMsg :=
  "Image size exceeds ".toList ++ natToChars maxSizeMB ++ "MB limit".toList

/-- Message template of the dimensions rejection (upload service line 187). -/
def dimsTooSmallMsg (minWidth minHeight : Nat) : ErrMsg :=
  "Image dimensions must be at least ".toList ++ natToChars minWidth ++
    "x".toList ++ natToChars minHeight ++ "px".toList

/-- Message of the missing-dimensions rejection (upload service line 183). -/
def unableDimsMsg : ErrMsg := "Unable to determine image dimensions".toList

/-- Embeds `validateImageRequirements` (upload service lines 166-197):
read metadata (a rejection propagates, since the catch rethrows every
`Error` unchanged), reject when `buffer.length / (1024*1024) > maxSizeMB`
(division by 2^20 is exact in doubles, so this equals the integer comparison
used here), reject when width or height is JS-falsy (absent or zero), reject
when width or height is below the minimum, else return `true`. The
`some (w + 1)` patterns are the truthy widths and heights. -/
def validateImageRequirements (metadataResult : Except ErrMsg SharpMetadata)
    (bufferLength maxSizeMB minWidth minHeight : Nat) : Except ErrMsg Bool :=
  match metadataResult with
  | Except.error e => Except.error e
  | Except.ok md =>
    if maxSizeMB * 1048576 < bufferLength then Except.error (sizeLimitMsg maxSizeMB)
    else
      match md.width, md.height with
      | some (w + 1), some (h + 1) =>
        if w + 1 < minWidth ∨ h + 1 < minHeight then
          Except.error (dimsTooSmallMsg minWidth minHeight)
        else Except.ok true
      | _, _ => Except.error unableDimsMsg

/-- A receipt row as `uploadReceipt` persists it (controller lines 171-191). -/
structure StoredReceipt where
  imageUrl : Key
  thumbnailUrl : Key
  amount : Rat
  tax : Option Rat
  totalAmount : Rat
  originalFilename : Key
  fileSize : Nat
  mimeType : Key
  imageMetadata : OriginalMetadata
deriving DecidableEq

/-- What a successful `uploadReceipt` run leaves behind: the persisted row
and the JSON payload (the row with both URLs passed through the signing
function, controller lines 193-204). -/
structure UploadOutcome where
  receipt : StoredReceipt
  response : StoredReceipt
deriving DecidableEq

/-- Embeds `uploadReceipt` (controller lines 126-213) after the auth,
file-presence and schema guards, on the path without a `jobId` (the
job-verification branch is skipped). `sign` is `getSignedUrl`;
`deleteFileOutcome` is the outcome of the `deleteFile(file.key)` call made in
the catch when processing fails — `deleteFile` (s3.config lines 107-112) has
no error handling of its own, so its rejection propagates out of the catch
block and the `throw error` line is never reached, which the inner match
embeds. `totalAmount` is `validatedData.amount + (validatedData.tax || 0)`
(line 142; the schema rejects a zero amount, and a zero tax behaves like an
absent one under `||`, both modelled by `Option.getD`). -/
def uploadReceipt (sign : Key → Key) (env : ImageEnv)
    (deleteFileOutcome : Except ErrMsg Unit) (file : UploadedFile)
    (amount : Rat) (tax : Option Rat) : Except ErrMsg UploadOutcome :=
  match processReceiptImage env file.key file.contentType with
  | Except.error e =>
    (match deleteFileOutcome with
     | Except.ok _ => Except.error e
     | Except.error d => Except.error d)
  | Except.ok processedImage =>
    let receipt : StoredReceipt :=
      { imageUrl := file.key, thumbnailUrl := processedImage.thumbnailKey,
        amount := amount, tax := tax, totalAmount := amount + tax.getD 0,
        originalFilename := file.originalname, fileSize := file.size,
        mimeType := file.contentType,
        imageMetadata := processedImage.originalMetadata }
    Except.ok
      { receipt := receipt,
        response := { receipt with
                      imageUrl := sign receipt.imageUrl,
                      thumbnailUrl := sign receipt.thumbnailUrl } }

/-- A concrete signing function standing in for `getSignedUrl`: it prefixes
the key, so a signed URL never equals the raw key. -/
def sampleSign (key : Key) : Key := "https://signed.example/".toList ++ key

/-- Environment of a successful processing run over a 50 by 50 pixel image:
every external call succeeds and sharp reports the tiny dimensions. -/
def env50 : ImageEnv :=
  { getObject := Except.ok (some [1, 2, 3]),
    contentLength := some 3,
    metadata := Except.ok { width := some 50, height := some 50, format := some "png".toList },
    thumbnailBuffer := Except.ok [4, 5, 6],
    putObject := Except.ok () }

/-- C7 counterexample: a 50 by 50 upload sails through `uploadReceipt` — the
pipeline never invokes `validateImageRequirements`, so no dimensions check
runs and a receipt business record (here reporting width 50) is created. -/
theorem small_image_record_created :
    (uploadReceipt sampleSign env50 (Except.ok ()) fileA 5 none).isOk = true
    ∧ ((uploadReceipt sampleSign env50 (Except.ok ()) fileA 5 none).toOption.map
        (fun o => o.receipt.imageMetadata.width)) = some (some 50) := by
  constructor <;> rfl

/-- C7 as amended: `validateImageRequirements`, when invoked, rejects any
decodable image whose width or height is below the configured minimum with
the dimensions error; but the upload pipeline never invokes it, and
`uploadReceipt` creates a receipt record for a 50 by 50 image whenever
thumbnailing succeeds. -/
theorem validateImageRequirements_small_dims
    (md : SharpMetadata) (bufferLength maxSizeMB minWidth minHeight w h : Nat)
    (hw : md.width = some w) (hh : md.height = some h)
    (h0w : 0 < w) (h0h : 0 < h)
    (hsize : bufferLength ≤ maxSizeMB * 1048576)
    (hsmall : w < minWidth ∨ h < minHeight) :
    validateImageRequirements (Except.ok md) bufferLength maxSizeMB minWidth minHeight =
      Except.error (dimsTooSmallMsg minWidth minHeight)
    ∧ (uploadReceipt sampleSign env50 (Except.ok ()) fileA 5 none).isOk = true := by
  refine ⟨?_, rfl⟩
  obtain ⟨w', rfl⟩ : ∃ w', w = w' + 1 := ⟨w - 1, by omega⟩
  obtain ⟨h', rfl⟩ : ∃ h', h = h' + 1 := ⟨h - 1, by omega⟩
  show (if maxSizeMB * 1048576 < bufferLength then Except.error (sizeLimitMsg maxSizeMB)
    else
      match md.width, md.height with
      | some (w + 1), some (h + 1) =>
        if w + 1 < minWidth ∨ h + 1 < minHeight then
          Except.error (dimsTooSmallMsg minWidth minHeight)
        else Except.ok true
      | _, _ => Except.error unableDimsMsg) = _
  rw [if_neg (by omega), hw, hh]
  show (if w' + 1 < minWidth ∨ h' + 1 < minHeight then
      Except.error (dimsTooSmallMsg minWidth minHeight)
    else Except.ok true) = _
  rw [if_pos hsmall]

/-- Witness for the amended C7 at a 50 by 50 metadata record with the default
limits. -/
theorem validateImageRequirements_small_dims_witness :
    validateImageRequirements
        (Except.ok { width := some 50, height := some 50, format := some "png".toList })
        3 10 100 100 = Except.error (dimsTooSmallMsg 100 100)
    ∧ (uploadReceipt sampleSign env50 (Except.ok ()) fileA 5 none).isOk = true :=
  validateImageRequirements_small_dims
    { width := some 50, height := some 50, format := some "png".toList }
    3 10 100 100 50 50 rfl rfl (by decide) (by decide) (by decide)
    (Or.inl (by decide))

/-- Message of a failing S3 delete used in the C9 scenario. -/
def accessDeniedMsg : ErrMsg := "Access Denied".toList

/-- C9 counterexample: on the single-file `uploadReceipt` path, when
processing fails and the compensating `deleteFile` also fails, the error
surfaced to the caller is the DELETION error, which replaces the original
processing error. -/
theorem delete_error_masks_processing_error :
    uploadReceipt sampleSign envNetFail (Except.error accessDeniedMsg) fileA 5 none =
      Except.error accessDeniedMsg
    ∧ processReceiptImage envNetFail fileA.key fileA.contentType =
      Except.error genericProcessMsg
    ∧ genericProcessMsg ≠ accessDeniedMsg := by
  refine ⟨rfl, rfl, by decide⟩

/-- C9 as amended: cleanup failures through `cleanupUploadedFiles` (the batch
path) are swallowed after logging, and when the compensating `deleteFile` of
the single-file path succeeds the original processing error is rethrown; but
`deleteFile` itself has no error handling, so on the single-file
`uploadReceipt` path a deletion failure propagates and replaces the original
processing error. -/
theorem cleanup_error_handling :
    (∀ (keys : List Key) (del : Except ErrMsg Unit),
        (cleanupUploadedFiles keys del).2 = Except.ok ())
    ∧ (∀ (sign : Key → Key) (env : ImageEnv) (file : UploadedFile)
        (a : Rat) (t : Option Rat) (e : ErrMsg),
        processReceiptImage env file.key file.contentType = Except.error e →
        uploadReceipt sign env (Except.ok ()) file a t = Except.error e)
    ∧ (∀ (sign : Key → Key) (env : ImageEnv) (file : UploadedFile)
        (a : Rat) (t : Option Rat) (e d : ErrMsg),
        processReceiptImage env file.key file.contentType = Except.error e →
        uploadReceipt sign env (Except.error d) file a t = Except.error d) := by
  refine ⟨fun keys del => rfl, ?_, ?_⟩
  · intro sign env file a t e he
    unfold uploadReceipt
    rw [he]
  · intro sign env file a t e d he
    unfold uploadReceipt
    rw [he]

/-- Witness for the amended C9 at concrete keys and environments. -/
theorem cleanup_error_handling_witness :
    (cleanupUploadedFiles [keyA] (Except.error accessDeniedMsg)).2 = Except.ok ()
    ∧ uploadReceipt sampleSign envNetFail (Except.ok ()) fileA 5 none =
      Except.error genericProcessMsg
    ∧ uploadReceipt sampleSign envNetFail (Except.error accessDeniedMsg) fileA 5 none =
      Except.error accessDeniedMsg :=
  ⟨cleanup_error_handling.1 [keyA] (Except.error accessDeniedMsg),
   cleanup_error_handling.2.1 sampleSign envNetFail fileA 5 none genericProcessMsg rfl,
   cleanup_error_handling.2.2 sampleSign envNetFail fileA 5 none genericProcessMsg
     accessDeniedMsg rfl⟩

/-- Amount-related fields of the client body accepted by `createReceipt`
(controller lines 66-74): `amount` and the optional `totalAmount` the client
may send. `none` models a JS-falsy `req.body.totalAmount` (absent or empty);
a numeric zero is handled by the explicit zero test. -/
structure CreateReceiptBody where
  amount : Rat
  totalAmount : Option Rat
deriving DecidableEq

/-- The amount-related columns of a persisted receipt row. -/
structure AmountFields where
  amount : Rat
  tax : Option Rat
  totalAmount : Rat
deriving DecidableEq

/-- Embeds the amount handling of `createReceipt` (controller lines 58-123):
`totalAmount: Number(req.body.totalAmount || req.body.amount)` stores the
client-supplied total as-is when truthy and falls back to the amount
otherwise; this endpoint accepts no tax field at all. -/
def createReceipt (body : CreateReceiptBody) : AmountFields :=
  { amount := body.amount,
    tax := none,
    totalAmount :=
      match body.totalAmount with
      | none => body.amount
      | some t => if t = 0 then body.amount else t }

/-- The derived-total invariant of the spec:
`totalAmount = amount + (tax ?? 0)`. -/
def totalInvariant (r : AmountFields) : Prop :=
  r.totalAmount = r.amount + r.tax.getD 0

/-- Embeds the amount handling of `updateReceipt` (controller lines 429-507):
prisma leaves a column unchanged when the corresponding validated field is
`undefined` (`none` here), and lines 475-481 recompute
`totalAmount = (amount ?? existing.amount) + (tax ?? existing.tax ?? 0)`
whenever amount or tax is present in the update. -/
def updateReceipt (existing : AmountFields) (amount? tax? : Option Rat) : AmountFields :=
  { amount := amount?.getD existing.amount,
    tax := match tax? with
      | some t => some t
      | none => existing.tax,
    totalAmount :=
      if amount?.isSome || tax?.isSome then
        amount?.getD existing.amount + tax?.getD (existing.tax.getD 0)
      else existing.totalAmount }

/-- C5 counterexample: `createReceipt` trusts the client's `totalAmount`:
with `amount = 5` and a client-sent `totalAmount = 999` the stored total is
999, not `amount + (tax ?? 0) = 5`. -/
theorem createReceipt_breaks_total_invariant :
    ¬ totalInvariant (createReceipt { amount := 5, totalAmount := some 999 }) := by
  norm_num [totalInvariant, createReceipt]

/-- C5 as amended: the stored `totalAmount` equals `amount + (tax ?? 0)`
after `uploadReceipt` and after any `updateReceipt` that touches amount or
tax; `createReceipt`, however, stores the client-supplied `totalAmount`
verbatim when one is sent (falling back to `amount` only when it is falsy),
so there the invariant is guaranteed only when the client sends no truthy
`totalAmount`. -/
theorem totalAmount_invariant_amended :
    (∀ (sign : Key → Key) (env : ImageEnv) (del : Except ErrMsg Unit)
        (file : UploadedFile) (a : Rat) (t : Option Rat) (o : UploadOutcome),
        uploadReceipt sign env del file a t = Except.ok o →
        o.receipt.totalAmount = o.receipt.amount + o.receipt.tax.getD 0)
    ∧ (∀ (existing : AmountFields) (a? t? : Option Rat),
        (a?.isSome || t?.isSome) = true → totalInvariant (updateReceipt existing a? t?))
    ∧ (∀ a : Rat, totalInvariant (createReceipt { amount := a, totalAmount := none })) := by
  refine ⟨?_, ?_, ?_⟩
  · intro sign env del file a t o h
    unfold uploadReceipt at h
    cases hres : processReceiptImage env file.key file.contentType with
    | error e =>
      rw [hres] at h
      cases del with
      | ok u => exact absurd h (by simp)
      | error d => exact absurd h (by simp)
    | ok pi =>
      rw [hres] at h
      rw [← Except.ok.inj h]
  · intro existing a? t? h
    unfold totalInvariant updateReceipt
    rw [if_pos h]
    cases t? <;> rfl
  · intro a
    simp [totalInvariant, createReceipt]

/-- The processed image that `env50` produces for `fileA`. -/
def sampleProcessed : ProcessedImage :=
  { thumbnailKey := generateThumbnailKey keyA,
    thumbnailUrl := thumbnailPublicUrl (generateThumbnailKey keyA),
    originalMetadata :=
      { width := some 50, height := some 50, format := some "png".toList,
        size := some 3 } }

/-- The row and response produced by a successful `uploadReceipt` run over
`env50` with amount 5 and tax 2. -/
def sampleStored : StoredReceipt :=
  { imageUrl := fileA.key, thumbnailUrl := sampleProcessed.thumbnailKey,
    amount := 5, tax := some 2, totalAmount := 5 + (2 : Rat),
    originalFilename := fileA.originalname, fileSize := fileA.size,
    mimeType := fileA.contentType,
    imageMetadata := sampleProcessed.originalMetadata }

def sampleOutcome : UploadOutcome :=
  { receipt := sampleStored,
    response := { sampleStored with
                  imageUrl := sampleSign sampleStored.imageUrl,
                  thumbnailUrl := sampleSign sampleStored.thumbnailUrl } }

/-- Witness for the amended C5 at concrete records. -/
theorem totalAmount_invariant_amended_witness :
    sampleOutcome.receipt.totalAmount =
      sampleOutcome.receipt.amount + sampleOutcome.receipt.tax.getD 0
    ∧ totalInvariant (updateReceipt { amount := 5, tax := none, totalAmount := 5 }
        (some 7) none)
    ∧ totalInvariant (createReceipt { amount := 5, totalAmount := none }) :=
  ⟨totalAmount_invariant_amended.1 sampleSign env50 (Except.ok ()) fileA 5 (some 2)
      sampleOutcome rfl,
   totalAmount_invariant_amended.2.1 { amount := 5, tax := none, totalAmount := 5 }
      (some 7) none (by decide),
   totalAmount_invariant_amended.2.2 5⟩

/-- A receipt row as the read endpoints load it from the database:
`imageUrl` always present, `thumbnailUrl` nullable. -/
structure DbReceipt where
  imageUrl : Key
  thumbnailUrl : Option Key
deriving DecidableEq

/-- Embeds the signed-URL mapping applied to every record by `getReceipts`
(controller lines 349-353) and to the single record by `getReceipt`
(lines 415-419): `imageUrl` is always signed, `thumbnailUrl` is signed when
present and stays `null` otherwise. -/
def receiptsWithUrls (sign : Key → Key) (receipts : List DbReceipt) : List DbReceipt :=
  receipts.map (fun r =>
    { imageUrl := sign r.imageUrl, thumbnailUrl := r.thumbnailUrl.map sign })

/-- C10 counterexample: the `uploadMultipleReceipts` response returns the
stored rows verbatim, so its `imageUrl` field is the raw object key — it
never passes through the signing function (for the given signing function a
signed URL never equals the raw key). -/
theorem multi_upload_response_raw_key :
    ((uploadMultipleReceipts [fileA] [some pA] (Except.ok ())).1.map
        (fun r => r.imageUrl)) = [fileA.key]
    ∧ sampleSign fileA.key ≠ fileA.key := by
  refine ⟨by decide, by decide⟩

/-- C10 as amended: `uploadReceipt` signs both URLs of its response, and the
read endpoints sign every key they return (`thumbnailUrl` only when
present); but every row in the `uploadMultipleReceipts` response data
carries a raw file key in `imageUrl`, untranslated. -/
theorem signed_urls_amended :
    (∀ (sign : Key → Key) (env : ImageEnv) (del : Except ErrMsg Unit)
        (file : UploadedFile) (a : Rat) (t : Option Rat) (o : UploadOutcome),
        uploadReceipt sign env del file a t = Except.ok o →
        o.response.imageUrl = sign o.receipt.imageUrl
        ∧ o.response.thumbnailUrl = sign o.receipt.thumbnailUrl)
    ∧ (∀ (sign : Key → Key) (receipts : List DbReceipt) (i : Nat),
        (receiptsWithUrls sign receipts)[i]? =
          (receipts[i]?).map (fun r =>
            { imageUrl := sign r.imageUrl, thumbnailUrl := r.thumbnailUrl.map sign }))
    ∧ (∀ (files : List UploadedFile) (outcomes : List (Option ProcessedImage))
        (del : Except ErrMsg Unit) (row : ReceiptRow),
        row ∈ (uploadMultipleReceipts files outcomes del).1 →
        row.imageUrl ∈ files.map (fun f => f.key)) := by
  refine ⟨?_, ?_, ?_⟩
  · intro sign env del file a t o h
    unfold uploadReceipt at h
    cases hres : processReceiptImage env file.key file.contentType with
    | error e =>
      rw [hres] at h
      cases del with
      | ok u => exact absurd h (by simp)
      | error d => exact absurd h (by simp)
    | ok pi =>
      rw [hres] at h
      rw [← Except.ok.inj h]
      exact ⟨rfl, rfl⟩
  · intro sign receipts i
    simp [receiptsWithUrls]
  · intro files outcomes del row hrow
    rcases List.mem_filterMap.1 hrow with ⟨o, ho, hoeq⟩
    rcases List.mem_iff_getElem?.1 ho with ⟨n, hn⟩
    unfold uploadMultipleRows uploadMultiplePair at hn
    rw [List.getElem?_mapIdx] at hn
    rcases Option.map_eq_some'.1 hn with ⟨f, hfn, hfo⟩
    rw [show (id o : Option ReceiptRow) = o from rfl] at hoeq
    rw [hoeq] at hfo
    rcases Option.map_eq_some'.1 hfo with ⟨q, _, hqrow⟩
    rw [← hqrow]
    exact List.mem_map.2 ⟨f, List.getElem?_mem hfn, rfl⟩

/-- Witness for the amended C10 at concrete data. -/
theorem signed_urls_amended_witness :
    sampleOutcome.response.imageUrl = sampleSign sampleOutcome.receipt.imageUrl
    ∧ (receiptsWithUrls sampleSign [{ imageUrl := keyA, thumbnailUrl := none }])[0]? =
        some { imageUrl := sampleSign keyA, thumbnailUrl := none }
    ∧ (mkReceiptRow fileA pA).imageUrl ∈ [fileA].map (fun f => f.key) := by
  refine ⟨(signed_urls_amended.1 sampleSign env50 (Except.ok ()) fileA 5 (some 2)
    sampleOutcome rfl).1, ?_, ?_⟩
  · rw [signed_urls_amended.2.1 sampleSign [{ imageUrl := keyA, thumbnailUrl := none }] 0]
    rfl
  · exact signed_urls_amended.2.2 [fileA] [some pA] (Except.ok ())
      (mkReceiptRow fileA pA) (by decide)
